import Mathlib

/-!
Shallow embedding of the ChanFM service worker (`sw.js`): the offline
resource cache manager.  Responses, requests and the cache storage are
modelled as concrete data; the network is an oracle `String → Option Response`
(`none` models a rejected fetch).  Promise chains become pure functions whose
possible rejection is an `Except Unit` result; fire-and-forget background
tasks become explicit effects on the returned store that never influence the
returned response value.
-/

/-- A captured HTTP response: status, body snapshot and headers. -/
structure Response where
  status : Nat
  body : String
  headers : List (String × String)
deriving DecidableEq, Repr

/-- The Fetch API `Response.ok` flag: status in the range 200..299. -/
def Response.isOk (r : Response) : Bool :=
  200 ≤ r.status && r.status ≤ 299

/-- An intercepted request: method, origin, path and headers
(`url = origin ++ pathname`). -/
structure Request where
  method : String
  origin : String
  pathname : String
  headers : List (String × String)
deriving DecidableEq, Repr

def Request.url (r : Request) : String := r.origin ++ r.pathname

/-- `headers.get(name)` on a header list. -/
def getHeader (hs : List (String × String)) (name : String) : Option String :=
  (hs.find? (fun p => p.1 == name)).map (fun p => p.2)

/-- Character-list substring containment, used to model JS `String.includes`. -/
def charsContain : List Char → List Char → Bool
  | [], sub => sub.isEmpty
  | c :: t, sub => sub.isPrefixOf (c :: t) || charsContain t sub

/-- JS `s.includes(sub)`. -/
def strIncludes (s sub : String) : Bool := charsContain s.data sub.data

/-- JS `s.endsWith(suffix)`. -/
def strEndsWith (s suf : String) : Bool := suf.data.isSuffixOf s.data

/-- `request.headers.get('Accept')?.includes('text/html')` from
`handleRequest` (sw.js line 93): absent header is falsy. -/
def acceptsHtml (req : Request) : Bool :=
  match getHeader req.headers "Accept" with
  | some v => strIncludes v "text/html"
  | none => false

/-- One cache generation: an association list from request URL to the stored
response, in insertion order. -/
abbrev Cache := List (String × Response)

/-- The `caches` storage: named cache generations in creation order. -/
abbrev CacheStorage := List (String × Cache)

/-- `const CACHE_NAME = 'chanfm-v1.0.0'` (sw.js line 4). -/
def CACHE_NAME : String := "chanfm-v1.0.0"

/-- `const STATIC_RESOURCES = [...]` (sw.js lines 8-16). -/
def STATIC_RESOURCES : List String :=
  ["/", "/index.html", "/getting-started.html", "/styles.css", "/script.js", "/404.html"]

/-- `isAllowedOrigin` (sw.js lines 188-196). -/
def isAllowedOrigin (origin : String) : Bool :=
  let allowedOrigins : List String :=
    ["https://fonts.googleapis.com", "https://fonts.gstatic.com", "https://cdnjs.cloudflare.com"]
  allowedOrigins.contains origin

/-- `isStaticAsset` (sw.js lines 199-202). -/
def isStaticAsset (pathname : String) : Bool :=
  let staticExtensions : List String :=
    [".css", ".js", ".png", ".jpg", ".jpeg", ".gif", ".svg", ".webp", ".ico", ".woff", ".woff2"]
  staticExtensions.any (fun ext => strEndsWith pathname ext)

/-- `caches.open(name)`: creates the named cache when absent (appended in
creation order), otherwise leaves the storage unchanged. -/
def cachesOpen (name : String) (cs : CacheStorage) : CacheStorage :=
  if cs.any (fun p => p.1 == name) then cs else cs ++ [(name, [])]

/-- `cache.match(url)` on a single cache. -/
def cacheGet (c : Cache) (url : String) : Option Response :=
  (c.find? (fun p => p.1 == url)).map (fun p => p.2)

/-- `cache.put(url, response)`: overwrite in place, append when absent. -/
def cachePut (url : String) (r : Response) : Cache → Cache
  | [] => [(url, r)]
  | (u, r') :: t => if u == url then (u, r) :: t else (u, r') :: cachePut url r t

/-- `caches.match(url)`: search every generation in creation order. -/
def cachesMatch (cs : CacheStorage) (url : String) : Option Response :=
  match cs with
  | [] => none
  | (_, c) :: t =>
    match cacheGet c url with
    | some r => some r
    | none => cachesMatch t url

/-- The entries of the generation called `name` (empty when absent). -/
def cacheEntries (cs : CacheStorage) (name : String) : Cache :=
  ((cs.find? (fun p => p.1 == name)).map (fun p => p.2)).getD []

/-- `updateCache` (sw.js lines 169-172): open `CACHE_NAME` and put. -/
def updateCache (url : String) (r : Response) (cs : CacheStorage) : CacheStorage :=
  (cachesOpen CACHE_NAME cs).map
    (fun p => if p.1 == CACHE_NAME then (p.1, cachePut url r p.2) else p)

/-- The network oracle: `none` models a rejected `fetch`. -/
abbrev Fetcher := String → Option Response

/-- `updateCacheInBackground` (sw.js lines 175-185): fire-and-forget fetch;
a non-ok response or a rejected fetch leaves the store unchanged (failure
is only logged). -/
def updateCacheInBackground (net : Fetcher) (req : Request) (cs : CacheStorage) : CacheStorage :=
  match net req.url with
  | some r => if r.isOk then updateCache req.url r cs else cs
  | none => cs

/-- `networkFirst` (sw.js lines 136-155). -/
def networkFirst (net : Fetcher) (req : Request) (cs : CacheStorage) :
    Except Unit (Response × CacheStorage) :=
  match net req.url with
  | some networkResponse =>
    .ok (networkResponse,
      if networkResponse.isOk then updateCache req.url networkResponse cs else cs)
  | none =>
    match cachesMatch cs req.url with
    | some cachedResponse => .ok (cachedResponse, cs)
    | none => .error ()

/-- `fetchAndCache` (sw.js lines 158-166). -/
def fetchAndCache (net : Fetcher) (req : Request) (cs : CacheStorage) :
    Except Unit (Response × CacheStorage) :=
  match net req.url with
  | some response =>
    .ok (response, if response.isOk then updateCache req.url response cs else cs)
  | none => .error ()

/-- `cacheFirst` (sw.js lines 123-133). -/
def cacheFirst (net : Fetcher) (req : Request) (cs : CacheStorage) :
    Except Unit (Response × CacheStorage) :=
  match cachesMatch cs req.url with
  | some cachedResponse => .ok (cachedResponse, updateCacheInBackground net req cs)
  | none => fetchAndCache net req cs

/-- The `try` block of `handleRequest` (sw.js lines 91-108): the nested
strategy dispatch, before the `catch`. -/
def handleRequestAttempt (net : Fetcher) (loc : String) (req : Request) (cs : CacheStorage) :
    Except Unit (Response × CacheStorage) :=
  if acceptsHtml req then networkFirst net req cs
  else if isStaticAsset req.pathname then cacheFirst net req cs
  else if req.origin != loc then cacheFirst net req cs
  else networkFirst net req cs

/-- The `catch` block of `handleRequest` (sw.js lines 110-119). -/
def handlerFallback (loc : String) (req : Request) (cs : CacheStorage) :
    Response × CacheStorage :=
  if acceptsHtml req then
    match cachesMatch cs (loc ++ "/404.html") with
    | some r => (r, cs)
    | none => ({ status := 404, body := "Page not found", headers := [] }, cs)
  else ({ status := 503, body := "Resource not available", headers := [] }, cs)

/-- `handleRequest` (sw.js lines 88-120). -/
def handleRequest (net : Fetcher) (loc : String) (req : Request) (cs : CacheStorage) :
    Response × CacheStorage :=
  match handleRequestAttempt net loc req cs with
  | .ok p => p
  | .error _ => handlerFallback loc req cs

/-- Outcome of a fetch event: pass through to default browser behaviour, or
answer via `event.respondWith`. -/
inductive FetchAction where
  | passThrough
  | respond (resp : Response)
deriving DecidableEq, Repr

/-- The `fetch` event listener (sw.js lines 68-85). -/
def fetchEvent (net : Fetcher) (loc : String) (req : Request) (cs : CacheStorage) :
    FetchAction × CacheStorage :=
  if req.method != "GET" then (.passThrough, cs)
  else if req.origin != loc && !(isAllowedOrigin req.origin) then (.passThrough, cs)
  else
    let p := handleRequest net loc req cs
    (.respond p.1, p.2)

/-- `cache.addAll(urls)` fetch phase (batch, atomic): every URL must resolve
with an ok-status response, otherwise the whole operation rejects and nothing
is added. -/
def addAllFetch (net : Fetcher) (loc : String) : List String → Option (List (String × Response))
  | [] => some []
  | p :: t =>
    match net (loc ++ p) with
    | none => none
    | some r =>
      if r.isOk then (addAllFetch net loc t).map (fun rest => (loc ++ p, r) :: rest)
      else none

/-- `cache.addAll(STATIC_RESOURCES)` on the `CACHE_NAME` cache: `.error` when
any fetch fails, in which case the store is untouched. -/
def addAll (net : Fetcher) (loc : String) (cs : CacheStorage) : Except Unit CacheStorage :=
  match addAllFetch net loc STATIC_RESOURCES with
  | none => .error ()
  | some es => .ok (es.foldl (fun acc e => updateCache e.1 e.2 acc) cs)

/-- What the `install` handler leaves behind: the storage, whether
`skipWaiting` was reached, and whether the promise handed to
`event.waitUntil` rejected. -/
structure InstallOutcome where
  store : CacheStorage
  skipWaiting : Bool
  rejected : Bool
deriving DecidableEq, Repr

/-- The `install` event listener (sw.js lines 25-42): open `CACHE_NAME`,
`addAll` the static resources, then `skipWaiting`.  The trailing `.catch`
only logs, so the promise given to `waitUntil` resolves even when `addAll`
rejected: `rejected` is `false` on both branches, and on the failure branch
`skipWaiting` was never reached. -/
def installEvent (net : Fetcher) (loc : String) (cs : CacheStorage) : InstallOutcome :=
  let cs1 := cachesOpen CACHE_NAME cs
  match addAll net loc cs1 with
  | .ok cs2 => { store := cs2, skipWaiting := true, rejected := false }
  | .error _ => { store := cs1, skipWaiting := false, rejected := false }

/-- The `activate` event listener (sw.js lines 45-65): delete every cache
generation whose name differs from `CACHE_NAME` (then `clients.claim`, which
does not touch the store). -/
def activateEvent (cs : CacheStorage) : CacheStorage :=
  cs.filter (fun p => p.1 == CACHE_NAME)

/-- `maxAge = 7 * 24 * 60 * 60 * 1000` (sw.js line 269), in milliseconds. -/
def cleanupMaxAge : Int := 7 * 24 * 60 * 60 * 1000

/-- The per-entry body of `performCacheCleanup`'s loop (sw.js lines 272-287),
as the survival predicate: an entry is kept unless its `date` header is
present, parses, and `now - responseDate > maxAge`.  The date oracle `pd`
stands for `new Date(s).getTime()`; `none` models NaN, for which the strict
comparison is false and the entry is kept. -/
def cleanupKeep (pd : String → Option Int) (now : Int) (e : String × Response) : Bool :=
  match getHeader e.2.headers "date" with
  | none => true
  | some d =>
    match pd d with
    | none => true
    | some t => decide (now - t ≤ cleanupMaxAge)

/-- `performCacheCleanup` (sw.js lines 264-288), with `Date.now()` passed as
`now`: open `CACHE_NAME` and delete every entry that `cleanupKeep` rejects. -/
def performCacheCleanup (pd : String → Option Int) (now : Int) (cs : CacheStorage) :
    CacheStorage :=
  (cachesOpen CACHE_NAME cs).map
    (fun p =>
      if p.1 == CACHE_NAME then (p.1, p.2.filter (cleanupKeep pd now)) else p)

/-- The `periodicsync` event listener (sw.js lines 258-262): only the
`cache-cleanup` tag triggers a cleanup pass. -/
def periodicsyncEvent (pd : String → Option Int) (now : Int) (tag : String)
    (cs : CacheStorage) : CacheStorage :=
  if tag == "cache-cleanup" then performCacheCleanup pd now cs else cs

/-! ### The Strategy Selector of the specification

Spec section 4.3 describes a standalone classifier `classify(request)` with a
first-match-wins decision order.  `classify` below follows the spec text; the
refinement theorem for claim C8 relates it to the dispatch inlined in
`handleRequest`. -/

/-- The two caching strategies of spec section 4.3. -/
inductive Strategy where
  | networkFirstStrat
  | cacheFirstStrat
deriving DecidableEq, Repr

/-- Modelled from the spec (section 4.3): first-match-wins classification of
a request into a strategy. -/
def classify (loc : String) (req : Request) : Strategy :=
  if acceptsHtml req then .networkFirstStrat
  else if isStaticAsset req.pathname then .cacheFirstStrat
  else if req.origin != loc then .cacheFirstStrat
  else .networkFirstStrat

/-- Run the strategy a classification selected. -/
def runStrategy : Strategy → Fetcher → Request → CacheStorage →
    Except Unit (Response × CacheStorage)
  | .networkFirstStrat => networkFirst
  | .cacheFirstStrat => cacheFirst

/-- Equality on `Except` results is decidable when it is on both sides. -/
instance {α β : Type} [DecidableEq α] [DecidableEq β] : DecidableEq (Except α β)
  | .ok a, .ok b =>
    if h : a = b then isTrue (by rw [h]) else isFalse (by intro hc; cases hc; exact h rfl)
  | .error a, .error b =>
    if h : a = b then isTrue (by rw [h]) else isFalse (by intro hc; cases hc; exact h rfl)
  | .ok _, .error _ => isFalse (by intro hc; cases hc)
  | .error _, .ok _ => isFalse (by intro hc; cases hc)

/-! ### Concrete material for witnesses -/

/-- The site origin used in concrete scenarios. -/
def siteLoc : String := "https://chanfm.github.io"

/-- A concrete ok response. -/
def okResp : Response := { status := 200, body := "ok", headers := [] }

/-- A concrete HTML-accepting page request. -/
def htmlReq : Request :=
  { method := "GET", origin := siteLoc, pathname := "/page",
    headers := [("Accept", "text/html,application/xml")] }

/-- A concrete same-origin request with neither an HTML accept type nor a
static-asset extension. -/
def plainReq : Request :=
  { method := "GET", origin := siteLoc, pathname := "/api", headers := [] }

/-- A concrete stylesheet request. -/
def cssReq : Request :=
  { method := "GET", origin := siteLoc, pathname := "/styles.css", headers := [] }

/-- A network oracle that always answers `okResp`. -/
def netOk : Fetcher := fun _ => some okResp

/-- A network oracle that always rejects. -/
def netDown : Fetcher := fun _ => none

/-- A storage holding the css entry in the current generation. -/
def csWithCss : CacheStorage := [(CACHE_NAME, [(cssReq.url, okResp)])]

/-- Claim C8: for every intercepted request the strategy dispatch inlined in
`handleRequest` implements the first-match-wins Strategy Selector of the
spec: HTML accept type → NetworkFirst; else static-asset extension →
CacheFirst; else cross-origin → CacheFirst; else NetworkFirst. -/
theorem handleRequest_implements_classify (net : Fetcher) (loc : String) (req : Request)
    (cs : CacheStorage) :
    handleRequestAttempt net loc req cs = runStrategy (classify loc req) net req cs := by
  unfold handleRequestAttempt classify
  split_ifs <;> rfl

/-- Claim C5: under NetworkFirst, a fetch that resolves with an ok status
persists a clone to the cache store (the same captured value in this pure
model) and the live response is returned; on a rejected fetch the cache is
consulted and a hit is returned; a miss propagates the failure. -/
theorem networkFirst_correct (net : Fetcher) (req : Request) (cs : CacheStorage) :
    (∀ r, net req.url = some r → r.isOk = true →
      networkFirst net req cs = .ok (r, updateCache req.url r cs)) ∧
    (net req.url = none → ∀ c, cachesMatch cs req.url = some c →
      networkFirst net req cs = .ok (c, cs)) ∧
    (net req.url = none → cachesMatch cs req.url = none →
      networkFirst net req cs = .error ()) := by
  refine ⟨?_, ?_, ?_⟩
  · intro r h hok
    simp [networkFirst, h, hok]
  · intro h c hc
    simp [networkFirst, h, hc]
  · intro h hc
    simp [networkFirst, h, hc]

/-- Witness for C5: the three scenarios at concrete inputs. -/
theorem networkFirst_correct_witness :
    networkFirst netOk htmlReq [] = .ok (okResp, updateCache htmlReq.url okResp []) ∧
    networkFirst netDown cssReq csWithCss = .ok (okResp, csWithCss) ∧
    networkFirst netDown htmlReq [] = .error () :=
  ⟨(networkFirst_correct netOk htmlReq []).1 okResp rfl rfl,
   (networkFirst_correct netDown cssReq csWithCss).2.1 rfl okResp (by decide),
   (networkFirst_correct netDown htmlReq []).2.2 rfl rfl⟩

/-- Claim C6: on a CacheFirst cache hit the cached response is returned for
every network oracle, so the background revalidation can neither block nor
alter the returned response; the revalidation's effect on the store is: no
change on a rejected fetch, no change on a non-ok response (failure only
logged), and an overwrite of the entry on an ok response. -/
theorem cacheFirst_hit_correct (net : Fetcher) (req : Request) (cs : CacheStorage)
    (c : Response) (h : cachesMatch cs req.url = some c) :
    cacheFirst net req cs = .ok (c, updateCacheInBackground net req cs) ∧
    (net req.url = none → updateCacheInBackground net req cs = cs) ∧
    (∀ r, net req.url = some r → r.isOk = false →
      updateCacheInBackground net req cs = cs) ∧
    (∀ r, net req.url = some r → r.isOk = true →
      updateCacheInBackground net req cs = updateCache req.url r cs) := by
  refine ⟨by simp [cacheFirst, h], ?_, ?_, ?_⟩
  · intro hn
    simp [updateCacheInBackground, hn]
  · intro r hn hok
    simp [updateCacheInBackground, hn, hok]
  · intro r hn hok
    simp [updateCacheInBackground, hn, hok]

/-- Witness for C6: a concrete cache hit, with a rejecting oracle and with an
ok-answering oracle. -/
theorem cacheFirst_hit_correct_witness :
    (cacheFirst netDown cssReq csWithCss = .ok (okResp, updateCacheInBackground netDown cssReq csWithCss) ∧
      updateCacheInBackground netDown cssReq csWithCss = csWithCss) ∧
    (cacheFirst netOk cssReq csWithCss = .ok (okResp, updateCacheInBackground netOk cssReq csWithCss) ∧
      updateCacheInBackground netOk cssReq csWithCss = updateCache cssReq.url okResp csWithCss) :=
  ⟨⟨(cacheFirst_hit_correct netDown cssReq csWithCss okResp (by decide)).1,
    (cacheFirst_hit_correct netDown cssReq csWithCss okResp (by decide)).2.1 rfl⟩,
   ⟨(cacheFirst_hit_correct netOk cssReq csWithCss okResp (by decide)).1,
    (cacheFirst_hit_correct netOk cssReq csWithCss okResp (by decide)).2.2.2 okResp rfl rfl⟩⟩

/-- Claim C10: a fetch that resolves with a non-ok status is returned as-is:
`networkFirst` and `fetchAndCache` leave the store unchanged (no cache
write), perform no fallback cache lookup, and yield `.ok` (so the failure
path and fallback handler are not taken); a CacheFirst miss behaves the
same, and through `handleRequest` a NetworkFirst request yields the non-ok
response itself rather than the fallback. -/
theorem nonOk_returned_as_is (net : Fetcher) (loc : String) (req : Request)
    (cs : CacheStorage) (r : Response) (hn : net req.url = some r) (hok : r.isOk = false) :
    networkFirst net req cs = .ok (r, cs) ∧
    fetchAndCache net req cs = .ok (r, cs) ∧
    (cachesMatch cs req.url = none → cacheFirst net req cs = .ok (r, cs)) ∧
    (acceptsHtml req = true → handleRequest net loc req cs = (r, cs)) := by
  have hnf : networkFirst net req cs = .ok (r, cs) := by
    simp [networkFirst, hn, hok]
  refine ⟨hnf, by simp [fetchAndCache, hn, hok], ?_, ?_⟩
  · intro hm
    simp [cacheFirst, hm, fetchAndCache, hn, hok]
  · intro ha
    simp [handleRequest, handleRequestAttempt, ha, hnf]

/-- Witness for C10: a 404 network answer to an HTML page request is handed
back unchanged with the store untouched. -/
theorem nonOk_returned_as_is_witness :
    networkFirst (fun _ => some { status := 404, body := "nope", headers := [] }) htmlReq [] =
      .ok ({ status := 404, body := "nope", headers := [] }, []) ∧
    fetchAndCache (fun _ => some { status := 404, body := "nope", headers := [] }) htmlReq [] =
      .ok ({ status := 404, body := "nope", headers := [] }, []) ∧
    handleRequest (fun _ => some { status := 404, body := "nope", headers := [] }) siteLoc htmlReq [] =
      ({ status := 404, body := "nope", headers := [] }, []) := by
  have h := nonOk_returned_as_is
    (fun _ => some { status := 404, body := "nope", headers := [] }) siteLoc htmlReq []
    { status := 404, body := "nope", headers := [] } rfl rfl
  exact ⟨h.1, h.2.1, h.2.2.2 (by decide)⟩

/-- Claim C7: a non-GET request, and a GET request whose origin is neither
the site origin nor in the allowed-origin set, is not intercepted: the fetch
listener answers with pass-through (no `respondWith`) and the cache store is
unchanged. -/
theorem fetchEvent_passThrough (net : Fetcher) (loc : String) (req : Request)
    (cs : CacheStorage)
    (h : req.method ≠ "GET" ∨ (req.origin ≠ loc ∧ isAllowedOrigin req.origin = false)) :
    fetchEvent net loc req cs = (.passThrough, cs) := by
  rcases h with h | ⟨h1, h2⟩
  · simp [fetchEvent, bne_iff_ne, h]
  · by_cases hm : req.method = "GET"
    · simp [fetchEvent, hm, bne_iff_ne, h1, h2]
    · simp [fetchEvent, bne_iff_ne, hm]

/-- Witness for C7: a POST request and a GET request from a disallowed
origin both pass through with the store untouched. -/
theorem fetchEvent_passThrough_witness :
    fetchEvent netOk siteLoc
      { method := "POST", origin := siteLoc, pathname := "/x", headers := [] } csWithCss =
      (.passThrough, csWithCss) ∧
    fetchEvent netOk siteLoc
      { method := "GET", origin := "https://evil.example", pathname := "/x", headers := [] } csWithCss =
      (.passThrough, csWithCss) :=
  ⟨fetchEvent_passThrough netOk siteLoc
      { method := "POST", origin := siteLoc, pathname := "/x", headers := [] } csWithCss
      (Or.inl (by decide)),
   fetchEvent_passThrough netOk siteLoc
      { method := "GET", origin := "https://evil.example", pathname := "/x", headers := [] } csWithCss
      (Or.inr ⟨by decide, by decide⟩)⟩

/-- Claim C2: `handleRequest` is a total function into a response-store pair
(so every intercepted GET terminates in a response object), and whenever the
strategy dispatch fails, the result is: for an HTML-accepting request the
cached `/404.html` page when present and otherwise a synthesized 404 with a
plain-text body, and for any other request a synthesized 503 with a
plain-text body, the store left unchanged. -/
theorem handleRequest_error_boundary (net : Fetcher) (loc : String) (req : Request)
    (cs : CacheStorage) (h : handleRequestAttempt net loc req cs = .error ()) :
    handleRequest net loc req cs =
      (if acceptsHtml req then
        match cachesMatch cs (loc ++ "/404.html") with
        | some r => (r, cs)
        | none => ({ status := 404, body := "Page not found", headers := [] }, cs)
      else ({ status := 503, body := "Resource not available", headers := [] }, cs)) := by
  simp only [handleRequest, h]
  rfl

/-- Witness for C2: with the network down and an empty cache, a plain
request gets the synthesized 503 and an HTML request gets the synthesized
404; with a cached `/404.html`, the HTML request gets the cached page. -/
theorem handleRequest_error_boundary_witness :
    handleRequest netDown siteLoc plainReq [] =
      ({ status := 503, body := "Resource not available", headers := [] }, []) ∧
    handleRequest netDown siteLoc htmlReq [] =
      ({ status := 404, body := "Page not found", headers := [] }, []) ∧
    handleRequest netDown siteLoc htmlReq [(CACHE_NAME, [(siteLoc ++ "/404.html", okResp)])] =
      (okResp, [(CACHE_NAME, [(siteLoc ++ "/404.html", okResp)])]) := by
  refine ⟨?_, ?_, ?_⟩
  · rw [handleRequest_error_boundary netDown siteLoc plainReq [] (by decide)]
    decide
  · rw [handleRequest_error_boundary netDown siteLoc htmlReq [] (by decide)]
    decide
  · rw [handleRequest_error_boundary netDown siteLoc htmlReq
      [(CACHE_NAME, [(siteLoc ++ "/404.html", okResp)])] (by decide)]
    decide

/-- When a name occurs in no entry of a storage, filtering for it yields
nothing. -/
lemma filter_name_eq_nil (n : String) (t : CacheStorage)
    (h : n ∉ t.map Prod.fst) : t.filter (fun p => p.1 == n) = [] := by
  induction t with
  | nil => rfl
  | cons a t ih =>
    have hne : (a.1 == n) = false := by
      apply beq_eq_false_iff_ne.mpr
      intro hc
      exact h (by simp [hc])
    have ht : n ∉ t.map Prod.fst := fun hc => h (by simp [hc])
    simp [List.filter, hne, ih ht]

/-- Claim C3: activation deletes every generation whose name differs from
the current one, so when the current generation exists (cache names are
unique in the storage), exactly one generation remains afterwards and its
name is `CACHE_NAME`. -/
theorem activate_single_generation (cs : CacheStorage)
    (hnodup : (cs.map Prod.fst).Nodup) (hmem : CACHE_NAME ∈ cs.map Prod.fst) :
    (activateEvent cs).map Prod.fst = [CACHE_NAME] ∧ (activateEvent cs).length = 1 := by
  suffices hmap : (activateEvent cs).map Prod.fst = [CACHE_NAME] by
    refine ⟨hmap, ?_⟩
    have := congrArg List.length hmap
    simpa using this
  unfold activateEvent
  induction cs with
  | nil => simp at hmem
  | cons a t ih =>
    rw [List.map_cons] at hnodup hmem
    rcases List.nodup_cons.mp hnodup with ⟨hnotin, hnd⟩
    by_cases ha : a.1 = CACHE_NAME
    · have hb : (a.1 == CACHE_NAME) = true := beq_iff_eq.mpr ha
      have hnone : CACHE_NAME ∉ t.map Prod.fst := by rw [← ha]; exact hnotin
      simp [List.filter, hb, filter_name_eq_nil CACHE_NAME t hnone, ha]
    · have hb : (a.1 == CACHE_NAME) = false := beq_eq_false_iff_ne.mpr ha
      have hmem' : CACHE_NAME ∈ t.map Prod.fst := by
        rcases List.mem_cons.mp hmem with h1 | h1
        · exact absurd h1.symm ha
        · exact h1
      simp [List.filter, hb]
      exact ih hnd hmem'

/-- Witness for C3: two stale generations around the current one are both
deleted. -/
theorem activate_single_generation_witness :
    (activateEvent [("chanfm-v0.9.0", [("a", okResp)]), (CACHE_NAME, [(cssReq.url, okResp)]),
        ("chanfm-v0.8.0", [])]).map Prod.fst = [CACHE_NAME] ∧
    (activateEvent [("chanfm-v0.9.0", [("a", okResp)]), (CACHE_NAME, [(cssReq.url, okResp)]),
        ("chanfm-v0.8.0", [])]).length = 1 :=
  activate_single_generation
    [("chanfm-v0.9.0", [("a", okResp)]), (CACHE_NAME, [(cssReq.url, okResp)]),
      ("chanfm-v0.8.0", [])] (by decide) (by decide)

/-- The cleanup pass, projected onto the current generation, is exactly a
filter by the survival predicate. -/
lemma cacheEntries_cleanup (pd : String → Option Int) (now : Int) (cs : CacheStorage) :
    cacheEntries (performCacheCleanup pd now cs) CACHE_NAME =
      (cacheEntries cs CACHE_NAME).filter (cleanupKeep pd now) := by
  unfold performCacheCleanup cacheEntries
  rw [List.find?_map]
  have hcomp : ((fun p : String × Cache => p.1 == CACHE_NAME) ∘
      (fun p : String × Cache =>
        if p.1 == CACHE_NAME then (p.1, p.2.filter (cleanupKeep pd now)) else p)) =
      (fun p : String × Cache => p.1 == CACHE_NAME) := by
    funext p
    simp only [Function.comp_apply]
    by_cases h : (p.1 == CACHE_NAME) = true
    · rw [if_pos h]
    · rw [if_neg h]
  rw [hcomp]
  unfold cachesOpen
  by_cases hany : cs.any (fun p => p.1 == CACHE_NAME) = true
  · rw [if_pos hany]
    rcases hfind : cs.find? (fun p => p.1 == CACHE_NAME) with _ | q
    · exfalso
      rcases List.any_eq_true.mp hany with ⟨x, hx, hpx⟩
      exact List.find?_eq_none.mp hfind x hx hpx
    · have hq : (q.1 == CACHE_NAME) = true := by simpa using List.find?_some hfind
      simp [hfind, hq, eq_of_beq hq]
  · rw [if_neg hany]
    have hnone : cs.find? (fun p => p.1 == CACHE_NAME) = none := by
      rw [List.find?_eq_none]
      intro x hx hpx
      exact hany (List.any_eq_true.mpr ⟨x, hx, hpx⟩)
    rw [List.find?_append, hnone]
    simp [List.find?]

/-- The survival predicate says exactly: no parsed date header whose age
exceeds the threshold. -/
lemma cleanupKeep_iff (pd : String → Option Int) (now : Int) (url : String) (r : Response) :
    cleanupKeep pd now (url, r) = true ↔
      ¬ ∃ d t, getHeader r.headers "date" = some d ∧ pd d = some t ∧
        cleanupMaxAge < now - t := by
  rcases hd : getHeader r.headers "date" with _ | d
  · simp [cleanupKeep, hd]
  · rcases ht : pd d with _ | t
    · simp [cleanupKeep, hd, ht]
    · simp only [cleanupKeep, hd, ht, decide_eq_true_eq]
      constructor
      · rintro hle ⟨d', t', hd', ht', hgt⟩
        cases hd'
        rw [ht] at ht'
        cases ht'
        omega
      · intro hne
        by_contra hgt
        exact hne ⟨d, t, rfl, ht, by omega⟩

/-- A concrete date oracle: only the string `t0` parses, to time 0. -/
def cleanupPd : String → Option Int := fun s => if s == "t0" then some 0 else none

/-- One day in milliseconds. -/
def dayMs : Int := 24 * 60 * 60 * 1000

/-- A response captured at time 0 (its `date` header parses to 0). -/
def datedResp : Response := { status := 200, body := "a", headers := [("date", "t0")] }

/-- A response without a `date` header. -/
def undatedResp : Response := { status := 200, body := "b", headers := [] }

/-- A current generation holding one dated and one undated entry. -/
def cleanupStore : CacheStorage := [(CACHE_NAME, [("u1", datedResp), ("u2", undatedResp)])]

/-- Claim C9: the cleanup pass deletes an entry of the current generation if
and only if it has a `date` header that parses and whose age w.r.t. `now`
exceeds the 7-day threshold; concretely, with `now` 8 days after the capture
the dated entry is deleted and the undated one kept, and with `now` 6 days
after the capture both are kept. -/
theorem cleanup_age_policy :
    (∀ (pd : String → Option Int) (now : Int) (cs : CacheStorage) (url : String) (r : Response),
      (url, r) ∈ cacheEntries (performCacheCleanup pd now cs) CACHE_NAME ↔
        ((url, r) ∈ cacheEntries cs CACHE_NAME ∧
          ¬ ∃ d t, getHeader r.headers "date" = some d ∧ pd d = some t ∧
            cleanupMaxAge < now - t)) ∧
    cacheEntries (performCacheCleanup cleanupPd (8 * dayMs) cleanupStore) CACHE_NAME =
      [("u2", undatedResp)] ∧
    cacheEntries (performCacheCleanup cleanupPd (6 * dayMs) cleanupStore) CACHE_NAME =
      [("u1", datedResp), ("u2", undatedResp)] := by
  refine ⟨?_, by decide, by decide⟩
  intro pd now cs url r
  rw [cacheEntries_cleanup, List.mem_filter, cleanupKeep_iff]

/-- An entry present somewhere in the storage. -/
def entryIn (cs : CacheStorage) (e : String × Response) : Prop :=
  ∃ p ∈ cs, e ∈ p.2

instance (cs : CacheStorage) (e : String × Response) : Decidable (entryIn cs e) := by
  unfold entryIn
  infer_instance

/-- The store after one request handling is either unchanged or the original
store with a single ok response written into the current generation. -/
def StoreOk (cs cs' : CacheStorage) : Prop :=
  cs' = cs ∨ ∃ u r, r.isOk = true ∧ cs' = updateCache u r cs

lemma storeOk_refl (cs : CacheStorage) : StoreOk cs cs := Or.inl rfl

lemma storeOk_updateCacheInBackground (net : Fetcher) (req : Request) (cs : CacheStorage) :
    StoreOk cs (updateCacheInBackground net req cs) := by
  unfold updateCacheInBackground
  rcases hn : net req.url with _ | r
  · exact Or.inl rfl
  · rcases hok : r.isOk with _ | _
    · simp [hok]
      exact Or.inl rfl
    · simp [hok]
      exact Or.inr ⟨req.url, r, hok, rfl⟩

lemma storeOk_networkFirst {net : Fetcher} {req : Request} {cs : CacheStorage}
    {resp : Response} {cs' : CacheStorage}
    (h : networkFirst net req cs = .ok (resp, cs')) : StoreOk cs cs' := by
  unfold networkFirst at h
  rcases hn : net req.url with _ | r <;> rw [hn] at h
  · rcases hm : cachesMatch cs req.url with _ | c <;> rw [hm] at h
    · exact absurd h (by simp)
    · simp at h
      exact h.2 ▸ Or.inl rfl
  · rcases hok : r.isOk with _ | _ <;> simp [hok] at h
    · exact h.2 ▸ Or.inl rfl
    · exact h.2 ▸ Or.inr ⟨req.url, r, hok, rfl⟩

lemma storeOk_fetchAndCache {net : Fetcher} {req : Request} {cs : CacheStorage}
    {resp : Response} {cs' : CacheStorage}
    (h : fetchAndCache net req cs = .ok (resp, cs')) : StoreOk cs cs' := by
  unfold fetchAndCache at h
  rcases hn : net req.url with _ | r <;> rw [hn] at h
  · exact absurd h (by simp)
  · rcases hok : r.isOk with _ | _ <;> simp [hok] at h
    · exact h.2 ▸ Or.inl rfl
    · exact h.2 ▸ Or.inr ⟨req.url, r, hok, rfl⟩

lemma storeOk_cacheFirst {net : Fetcher} {req : Request} {cs : CacheStorage}
    {resp : Response} {cs' : CacheStorage}
    (h : cacheFirst net req cs = .ok (resp, cs')) : StoreOk cs cs' := by
  unfold cacheFirst at h
  rcases hm : cachesMatch cs req.url with _ | c <;> rw [hm] at h
  · exact storeOk_fetchAndCache h
  · simp at h
    exact h.2 ▸ storeOk_updateCacheInBackground net req cs

lemma storeOk_handlerFallback (loc : String) (req : Request) (cs : CacheStorage) :
    (handlerFallback loc req cs).2 = cs := by
  unfold handlerFallback
  by_cases ha : acceptsHtml req = true
  · rw [if_pos ha]
    rcases hm : cachesMatch cs (loc ++ "/404.html") with _ | r <;> simp [hm]
  · rw [if_neg ha]

lemma storeOk_handleRequest (net : Fetcher) (loc : String) (req : Request)
    (cs : CacheStorage) : StoreOk cs (handleRequest net loc req cs).2 := by
  unfold handleRequest
  rcases hatt : handleRequestAttempt net loc req cs with e | p
  · simp only []
    rw [storeOk_handlerFallback]
    exact storeOk_refl cs
  · obtain ⟨resp, cs'⟩ := p
    simp only []
    unfold handleRequestAttempt at hatt
    split_ifs at hatt
    · exact storeOk_networkFirst hatt
    · exact storeOk_cacheFirst hatt
    · exact storeOk_cacheFirst hatt
    · exact storeOk_networkFirst hatt

lemma mem_cachePut {e : String × Response} {url : String} {r : Response} {c : Cache}
    (h : e ∈ cachePut url r c) : e ∈ c ∨ e = (url, r) := by
  induction c with
  | nil =>
    right
    simpa [cachePut] using h
  | cons a t ih =>
    obtain ⟨u, r'⟩ := a
    unfold cachePut at h
    by_cases hu : (u == url) = true
    · rw [if_pos hu] at h
      rcases List.mem_cons.mp h with h1 | h1
      · right
        rw [h1, eq_of_beq hu]
      · exact Or.inl (List.mem_cons_of_mem _ h1)
    · rw [if_neg hu] at h
      rcases List.mem_cons.mp h with h1 | h1
      · exact Or.inl (h1 ▸ List.mem_cons_self _ _)
      · rcases ih h1 with h2 | h2
        · exact Or.inl (List.mem_cons_of_mem _ h2)
        · exact Or.inr h2

lemma entryIn_cachesOpen {n : String} {cs : CacheStorage} {e : String × Response}
    (h : entryIn (cachesOpen n cs) e) : entryIn cs e := by
  unfold cachesOpen at h
  split at h
  · exact h
  · obtain ⟨p, hp, he⟩ := h
    rcases List.mem_append.mp hp with h1 | h1
    · exact ⟨p, h1, he⟩
    · rcases List.mem_singleton.mp h1 with rfl
      exact absurd he (List.not_mem_nil e)

lemma entryIn_updateCache {url : String} {r : Response} {cs : CacheStorage}
    {e : String × Response} (h : entryIn (updateCache url r cs) e) :
    entryIn cs e ∨ e = (url, r) := by
  unfold updateCache at h
  obtain ⟨p, hp, he⟩ := h
  rcases List.mem_map.mp hp with ⟨q, hq, hfq⟩
  by_cases hn : (q.1 == CACHE_NAME) = true
  · rw [if_pos hn] at hfq
    rw [← hfq] at he
    rcases mem_cachePut he with h1 | h1
    · exact Or.inl (entryIn_cachesOpen ⟨q, hq, h1⟩)
    · exact Or.inr h1
  · rw [if_neg hn] at hfq
    rw [← hfq] at he
    exact Or.inl (entryIn_cachesOpen ⟨q, hq, he⟩)

/-- Claim C4: every cache entry present after `handleRequest` was either
already present or is an ok (2xx) response: no write of a non-ok response
ever happens, on the network-first success path, the cache-first miss path,
or the background revalidation. -/
theorem fetch_writes_only_ok (net : Fetcher) (loc : String) (req : Request)
    (cs : CacheStorage) (url : String) (r : Response)
    (h : entryIn (handleRequest net loc req cs).2 (url, r)) :
    entryIn cs (url, r) ∨ r.isOk = true := by
  rcases storeOk_handleRequest net loc req cs with heq | ⟨u, rr, hok, heq⟩
  · rw [heq] at h
    exact Or.inl h
  · rw [heq] at h
    rcases entryIn_updateCache h with h1 | h1
    · exact Or.inl h1
    · right
      rw [(Prod.mk.injEq _ _ _ _).mp h1 |>.2]
      exact hok

/-- Witness for C4: a css fetch answered 200 lands in the previously empty
store, and the claim's disjunction holds for it. -/
theorem fetch_writes_only_ok_witness :
    entryIn [] (cssReq.url, okResp) ∨ okResp.isOk = true :=
  fetch_writes_only_ok netOk siteLoc cssReq [] cssReq.url okResp (by decide)

/-- A network where the fetch of `/styles.css` rejects and every other fetch
answers 200. -/
def installFailNet : Fetcher := fun url =>
  if url == siteLoc ++ "/styles.css" then none else some okResp

/-- Claim C1 (evidence of the code bug): when fetching one entry of the
Static Resource List fails, `cache.addAll` rejects (atomically, so no entry
of this attempt persists and `skipWaiting` is not reached), but the trailing
`.catch` of the install handler swallows the rejection, so the promise
handed to `event.waitUntil` resolves and the install does NOT fail —
contradicting the specified propagation of the failure.  On a fully
successful network the install resolves with every static resource
cached. -/
theorem install_failure_swallowed :
    (installEvent installFailNet siteLoc []).rejected = false ∧
    (installEvent installFailNet siteLoc []).skipWaiting = false ∧
    cacheEntries (installEvent installFailNet siteLoc []).store CACHE_NAME = [] ∧
    (installEvent (fun _ => some okResp) siteLoc []).rejected = false ∧
    (installEvent (fun _ => some okResp) siteLoc []).skipWaiting = true ∧
    (cacheEntries (installEvent (fun _ => some okResp) siteLoc []).store CACHE_NAME).map
      Prod.fst = STATIC_RESOURCES.map (fun p => siteLoc ++ p) := by
  decide
